import Mathlib

/-!
Shallow embedding of the ESP32-CAM timelapse capture controller
(esp32cam_timelapse.py): brightness history, adaptive feedback controller,
retry loop, frame store naming and the main capture loop, together with
theorems settling the specification claims.

Conventions: Python floats are modelled as rationals; Python ints as
integers; network effects (capture results, per-attempt errors) are inputs
to the model; wall-clock durations are rational parameters.
-/

namespace ESP32Cam

/-- Result of one capture request: a transport or decode error, or a raw
image reduced (by the brightness evaluator) to its mean brightness. -/
inductive AttemptInput where
  | err : AttemptInput
  | img : ℚ → AttemptInput

/-- Outcome of one frame cycle. -/
inductive Outcome where
  | Completed : Outcome
  | Skipped : Outcome
deriving DecidableEq

/-- Tuning and capture parameters taken from the command line. -/
structure RunArgs where
  target_brightness : ℚ
  brightness_tolerance : ℚ
  consistency_tolerance : ℚ
  max_retries : ℕ
  interval : ℚ
  start_frame : ℤ
  frames : ℕ
  basename : String
  save_metadata : Bool
  led_initial : ℤ

/-- Mutable session state of the controller object. -/
structure SessionState where
  current_led : ℤ
  brightness_history : List ℚ
  frame_number : ℤ
deriving DecidableEq

/-- get_running_average: None when the history is empty, otherwise
sum divided by length. -/
def get_running_average (hist : List ℚ) : Option ℚ :=
  if hist = [] then none else some (hist.sum / hist.length)

/-- update_brightness_history: append the sample, then pop the oldest
element when the history exceeds 10 entries. -/
def update_brightness_history (hist : List ℚ) (brightness : ℚ) : List ℚ :=
  let h := hist ++ [brightness]
  if h.length > 10 then h.tail else h

/-- is_consistent: accept unconditionally when the history is empty,
otherwise accept iff the distance from the running average is at most the
consistency tolerance. -/
def is_consistent (ctol : ℚ) (hist : List ℚ) (brightness : ℚ) : Bool :=
  match get_running_average hist with
  | none => true
  | some avg => decide (|brightness - avg| ≤ ctol)

/-- Truncation toward zero, the semantics of Python int() on a real. -/
def int_trunc (q : ℚ) : ℤ :=
  if 0 ≤ q then ⌊q⌋ else ⌈q⌉

/-- calculate_led_adjustment: deviation from the target brightness; zero
inside the tolerance band, otherwise deviation / 8 truncated toward zero
and clamped to [-20, 20]. -/
def calculate_led_adjustment (target btol : ℚ) (brightness : ℚ) : ℤ :=
  let deviation := target - brightness
  if |deviation| ≤ btol then 0
  else max (-20) (min 20 (int_trunc (deviation / 8)))

/-- The LED update performed in the main loop after a completed frame:
the clamp to [0, 255] is applied only when the adjustment is nonzero. -/
def next_led (target btol : ℚ) (current : ℤ) (brightness : ℚ) : ℤ :=
  let adjustment := calculate_led_adjustment target btol brightness
  if adjustment ≠ 0 then max 0 (min 255 (current + adjustment)) else current

/-- The retry loop of capture_with_adaptive_led: attempt i is the i-th
capture result; an error or an inconsistent brightness moves on to the
next attempt, a consistent brightness returns with the current LED level.
Neither the history nor the LED level is modified inside the loop. -/
def capture_loop (ctol : ℚ) (hist : List ℚ) (led : ℤ)
    (attempts : ℕ → AttemptInput) : ℕ → ℕ → Option (ℚ × ℤ)
  | _, 0 => none
  | i, r + 1 =>
    match attempts i with
    | .err => capture_loop ctol hist led attempts (i + 1) r
    | .img b =>
      if is_consistent ctol hist b then some (b, led)
      else capture_loop ctol hist led attempts (i + 1) r

/-- capture_with_adaptive_led: run up to max_retries attempts starting at
attempt 0; None when every attempt fails. -/
def capture_with_adaptive_led (ctol : ℚ) (hist : List ℚ) (led : ℤ)
    (attempts : ℕ → AttemptInput) (max_retries : ℕ) : Option (ℚ × ℤ) :=
  capture_loop ctol hist led attempts 0 max_retries

/-- Decimal digits of a natural number, most significant first
(fuel-driven so that it evaluates by kernel reduction). -/
def natDigitsAux : ℕ → ℕ → List ℕ
  | 0, _ => []
  | f + 1, n => if n < 10 then [n] else natDigitsAux f (n / 10) ++ [n % 10]

/-- Decimal digits of a natural number, most significant first. -/
def natDigits (n : ℕ) : List ℕ :=
  natDigitsAux (n + 1) n

/-- A decimal digit as a character. -/
def digitChar (d : ℕ) : Char :=
  Char.ofNat (48 + d)

/-- Left-pad a character list to width w. -/
def padListLeft (c : Char) (w : ℕ) (s : List Char) : List Char :=
  List.replicate (w - s.length) c ++ s

/-- The Python format specifier 05d: decimal rendering zero-padded to a
minimum total width of 5 (the sign occupying one column when negative). -/
def format05 (n : ℤ) : String :=
  if n < 0 then
    String.mk ('-' :: padListLeft '0' 4 ((natDigits n.natAbs).map digitChar))
  else
    String.mk (padListLeft '0' 5 ((natDigits n.natAbs).map digitChar))

/-- generate_filename: basename, underscore, 5-digit-padded frame number,
jpg extension. -/
def generate_filename (basename : String) (frame_number : ℤ) : String :=
  basename ++ "_" ++ format05 frame_number ++ ".jpg"

/-- Metadata record written next to a saved image. -/
structure FrameMetadata where
  frame : ℤ
  timestamp : ℕ
  brightness : ℚ
  led_intensity : ℤ
  running_avg : Option ℚ
deriving DecidableEq

/-- The artifacts written by save_image for one completed frame. -/
structure SavedFrame where
  image_path : String
  meta_path : Option String
  meta : Option FrameMetadata
deriving DecidableEq

/-- save_image: write the image under the generated name; when metadata
saving is enabled, write a sibling json record holding the frame number,
timestamp, brightness, LED level and the running average of the history as
it stands at the moment of the call. -/
def save_image (basename : String) (save_metadata : Bool) (timestamp : ℕ)
    (frame_number : ℤ) (hist : List ℚ) (brightness : ℚ) (led : ℤ) : SavedFrame :=
  { image_path := generate_filename basename frame_number
    meta_path :=
      if save_metadata then some (basename ++ "_" ++ format05 frame_number ++ ".json")
      else none
    meta :=
      if save_metadata then
        some { frame := frame_number, timestamp := timestamp,
               brightness := brightness, led_intensity := led,
               running_avg := get_running_average hist }
      else none }

/-- Environment inputs consumed by one frame cycle: the capture result of
each attempt, the wall-clock processing time of the cycle and the
timestamp recorded in metadata. -/
structure CycleInput where
  attempts : ℕ → AttemptInput
  elapsed : ℚ
  timestamp : ℕ

/-- What one iteration of the main loop produced. -/
structure CycleResult where
  seq : ℤ
  outcome : Outcome
  saved : Option SavedFrame
  slept : ℚ
deriving DecidableEq

/-- One iteration of the main while loop of run: capture with retries;
on failure advance the frame number and sleep the full interval; on
success save the image (running average still that of the pre-cycle
history), update the history, adjust the LED, advance the frame number
and sleep max(0, interval - elapsed) only when another frame remains. -/
def run_cycle (args : RunArgs) (end_frame : ℤ) (s : SessionState)
    (inp : CycleInput) : SessionState × CycleResult :=
  match capture_with_adaptive_led args.consistency_tolerance
      s.brightness_history s.current_led inp.attempts args.max_retries with
  | none =>
    ({ s with frame_number := s.frame_number + 1 },
     { seq := s.frame_number, outcome := .Skipped, saved := none,
       slept := args.interval })
  | some (b, led) =>
    let saved := save_image args.basename args.save_metadata inp.timestamp
      s.frame_number s.brightness_history b led
    let hist2 := update_brightness_history s.brightness_history b
    let led2 := next_led args.target_brightness args.brightness_tolerance
      s.current_led b
    let fn2 := s.frame_number + 1
    let slept := if fn2 < end_frame then max 0 (args.interval - inp.elapsed) else 0
    ({ current_led := led2, brightness_history := hist2, frame_number := fn2 },
     { seq := s.frame_number, outcome := .Completed, saved := some saved,
       slept := slept })

/-- The main while loop: run cycles while the frame number is below
end_frame; exhausting the input list models an external interruption
observed at a cycle boundary. -/
def run_cycles (args : RunArgs) (end_frame : ℤ) :
    SessionState → List CycleInput → SessionState × List CycleResult
  | s, [] => (s, [])
  | s, inp :: rest =>
    if s.frame_number < end_frame then
      let p := run_cycle args end_frame s inp
      let q := run_cycles args end_frame p.1 rest
      (q.1, p.2 :: q.2)
    else (s, [])

/-- Session state as constructed before the run starts. -/
def initialState (args : RunArgs) : SessionState :=
  { current_led := args.led_initial, brightness_history := [],
    frame_number := args.start_frame }

/-- The observable result of run: whether it returned True, the cycle
results, and the frame number printed in the final log line. -/
structure RunResult where
  ok : Bool
  results : List CycleResult
  reported_last_frame : Option ℤ

/-- run: a failed connection test returns False before any frame cycle;
otherwise all cycles execute and the final log line reports
frame_number - 1. -/
def run (args : RunArgs) (healthOk : Bool) (inputs : List CycleInput) : RunResult :=
  if healthOk then
    let p := run_cycles args (args.start_frame + (args.frames : ℤ))
      (initialState args) inputs
    { ok := true, results := p.2, reported_last_frame := some (p.1.frame_number - 1) }
  else
    { ok := false, results := [], reported_last_frame := none }

/-- set_control: a single best-effort configuration request whose success
is decided by the device. -/
def set_control (apply : String → ℤ → Bool) (var : String) (val : ℤ) : Bool :=
  apply var val

/-- configure_camera: apply every setting in order, collecting each
outcome; a failure on one key does not stop the remaining keys. -/
def configure_camera (apply : String → ℤ → Bool)
    (settings : List (String × ℤ)) : List Bool :=
  settings.map (fun p => set_control apply p.1 p.2)

/-- Events observable from outside a run, for stating ordering claims. -/
inductive Event where
  | probe : Bool → Event
  | frame : ℤ → Outcome → Event
deriving DecidableEq

/-- Is this event the health probe? -/
def Event.isProbe : Event → Bool
  | .probe _ => true
  | .frame _ _ => false

/-- The event trace of a run: the connection test happens first, exactly
once, then one event per frame cycle. -/
def run_events (args : RunArgs) (healthOk : Bool) (inputs : List CycleInput) :
    List Event :=
  Event.probe healthOk ::
    (run args healthOk inputs).results.map (fun r => Event.frame r.seq r.outcome)

/-- A failed attempt as seen by the retry loop: either a capture error,
or a brightness inconsistent with the given history. -/
def attempt_fails (ctol : ℚ) (hist : List ℚ) : AttemptInput → Bool
  | .err => true
  | .img b => ! is_consistent ctol hist b

/-- Completed outcomes, for extracting persisted frames from a run. -/
def Outcome.isCompleted : Outcome → Bool
  | .Completed => true
  | .Skipped => false

/-- A concrete parameter set (the documented defaults with a two-frame
run) used to evaluate the theorems on concrete inputs. -/
def argsA : RunArgs :=
  { target_brightness := 128, brightness_tolerance := 30,
    consistency_tolerance := 40, max_retries := 3, interval := 20,
    start_frame := 0, frames := 2, basename := "frame",
    save_metadata := true, led_initial := 50 }

/-- A cycle whose every capture attempt errors out, taking 5 seconds. -/
def errCycle : CycleInput :=
  { attempts := fun _ => .err, elapsed := 5, timestamp := 0 }

/-- A cycle whose every capture attempt yields brightness b, taking one
second. -/
def imgCycle (b : ℚ) : CycleInput :=
  { attempts := fun _ => .img b, elapsed := 1, timestamp := 7 }

theorem int_trunc_neg (q : ℚ) : int_trunc (-q) = - int_trunc q := by
  rcases lt_trichotomy q 0 with h | h | h
  · rw [int_trunc, int_trunc, if_pos (by linarith), if_neg (by linarith), Int.floor_neg]
  · subst h; simp [int_trunc]
  · rw [int_trunc, int_trunc, if_neg (by linarith), if_pos (by linarith), Int.ceil_neg]

theorem int_trunc_nonneg {q : ℚ} (h : 0 ≤ q) : 0 ≤ int_trunc q := by
  rw [int_trunc, if_pos h]
  exact Int.floor_nonneg.2 h

theorem int_trunc_nonpos {q : ℚ} (h : q ≤ 0) : int_trunc q ≤ 0 := by
  rcases eq_or_lt_of_le h with h0 | h0
  · rw [h0]; simp [int_trunc]
  · rw [int_trunc, if_neg (by linarith)]
    exact Int.ceil_le.2 (by simpa using h)

theorem int_trunc_abs (q : ℚ) : int_trunc |q| = |int_trunc q| := by
  rcases le_total 0 q with h | h
  · rw [abs_of_nonneg h, abs_of_nonneg (int_trunc_nonneg h)]
  · rw [abs_of_nonpos h, int_trunc_neg, abs_of_nonpos (int_trunc_nonpos h)]

theorem clamp20_abs (x : ℤ) : |max (-20) (min 20 x)| = min 20 |x| := by
  rcases le_total 0 x with h | h
  · rw [abs_of_nonneg h, abs_of_nonneg (a := max (-20) (min 20 x)) (by omega)]
    omega
  · rw [abs_of_nonpos h, abs_of_nonpos (a := max (-20) (min 20 x)) (by omega)]
    omega

/-- Claim C4: the consistency check accepts every sample when the history is
empty; on a non-empty history it accepts brightness b iff the distance
from the running average is at most the consistency tolerance, with the
boundary inclusive: a deviation exactly equal to the tolerance is
accepted, one unit beyond is rejected. -/
theorem C4_consistency_check :
    (∀ (ctol b : ℚ), is_consistent ctol [] b = true) ∧
    (∀ (ctol b avg : ℚ) (hist : List ℚ), get_running_average hist = some avg →
      ((is_consistent ctol hist b = true ↔ |b - avg| ≤ ctol) ∧
       (|b - avg| = ctol → is_consistent ctol hist b = true) ∧
       (|b - avg| = ctol + 1 → is_consistent ctol hist b = false))) := by
  constructor
  · intro ctol b
    simp [is_consistent, get_running_average]
  · intro ctol b avg hist havg
    have h1 : is_consistent ctol hist b = decide (|b - avg| ≤ ctol) := by
      rw [is_consistent, havg]
    refine ⟨?_, ?_, ?_⟩
    · rw [h1]; exact decide_eq_true_iff
    · intro he; rw [h1, he]; simp
    · intro he; rw [h1, he]
      simp only [decide_eq_false_iff_not, not_le]
      linarith

/-- Claim C4 witness: with the default tolerance 40, an empty history accepts
160; a history with average 120 accepts 160 (deviation exactly 40) and
rejects 161 (one unit beyond). -/
theorem C4_consistency_check_witness :
    is_consistent 40 [] 160 = true ∧
    is_consistent 40 [120] 160 = true ∧
    is_consistent 40 [120] 161 = false := by
  have havg : get_running_average [120] = some 120 := by
    norm_num [get_running_average]
  refine ⟨C4_consistency_check.1 40 160, ?_, ?_⟩
  · exact (C4_consistency_check.2 40 160 120 [120] havg).2.1 (by norm_num)
  · exact (C4_consistency_check.2 40 161 120 [120] havg).2.2 (by norm_num)

/-- Claim C5: for an accepted sample the actuator adjustment is 0 inside the
brightness tolerance band (inclusive); otherwise it is deviation / 8
truncated toward zero and clamped to [-20, 20], its magnitude is
min 20 (trunc (deviation-magnitude / 8)) in the direction of the
deviation, and the new LED level is clamp(current + adjustment, 0, 255),
always inside [0, 255], whenever the current level is in range. -/
theorem C5_led_adjustment :
    ∀ (target btol b : ℚ) (cur : ℤ),
      (|target - b| ≤ btol → calculate_led_adjustment target btol b = 0) ∧
      (¬ |target - b| ≤ btol →
        (calculate_led_adjustment target btol b
            = max (-20) (min 20 (int_trunc ((target - b) / 8))) ∧
         |calculate_led_adjustment target btol b|
            = min 20 (int_trunc (|target - b| / 8)) ∧
         0 ≤ (calculate_led_adjustment target btol b : ℚ) * (target - b))) ∧
      (0 ≤ cur → cur ≤ 255 →
        (next_led target btol cur b
            = max 0 (min 255 (cur + calculate_led_adjustment target btol b)) ∧
         0 ≤ next_led target btol cur b ∧ next_led target btol cur b ≤ 255)) := by
  intro target btol b cur
  refine ⟨?_, ?_, ?_⟩
  · intro h
    rw [calculate_led_adjustment]
    simp only [if_pos h]
  · intro h
    have hadj : calculate_led_adjustment target btol b
        = max (-20) (min 20 (int_trunc ((target - b) / 8))) := by
      rw [calculate_led_adjustment]
      simp only [if_neg h]
    refine ⟨hadj, ?_, ?_⟩
    · have habs : |target - b| / 8 = |(target - b) / 8| := by
        rw [abs_div]
        norm_num
      rw [hadj, clamp20_abs, habs, int_trunc_abs]
    · rw [hadj]
      rcases le_total 0 (target - b) with hd | hd
      · have h8 : 0 ≤ (target - b) / 8 := by positivity
        have : 0 ≤ max (-20) (min 20 (int_trunc ((target - b) / 8))) := by
          have := int_trunc_nonneg h8
          omega
        have hc : (0 : ℚ) ≤ (max (-20) (min 20 (int_trunc ((target - b) / 8))) : ℤ) := by
          exact_mod_cast this
        exact mul_nonneg hc hd
      · have h8 : (target - b) / 8 ≤ 0 := by
          apply div_nonpos_of_nonpos_of_nonneg hd
          norm_num
        have : max (-20) (min 20 (int_trunc ((target - b) / 8))) ≤ 0 := by
          have := int_trunc_nonpos h8
          omega
        have hc : ((max (-20) (min 20 (int_trunc ((target - b) / 8))) : ℤ) : ℚ) ≤ 0 := by
          exact_mod_cast this
        nlinarith [mul_nonneg (neg_nonneg.2 hc) (neg_nonneg.2 hd)]
  · intro h0 h255
    simp only [next_led]
    by_cases hz : calculate_led_adjustment target btol b = 0
    · rw [hz, if_neg (by simp)]
      exact ⟨by omega, h0, h255⟩
    · rw [if_pos hz]
      exact ⟨rfl, by omega, by omega⟩

theorem run_cycle_state (args : RunArgs) (ef : ℤ) (s : SessionState)
    (inp : CycleInput) :
    (run_cycle args ef s inp).1.frame_number = s.frame_number + 1 ∧
    (run_cycle args ef s inp).2.seq = s.frame_number := by
  unfold run_cycle
  split
  · exact ⟨rfl, rfl⟩
  · exact ⟨rfl, rfl⟩

theorem run_cycles_seq_get (args : RunArgs) (ef : ℤ) :
    ∀ (inputs : List CycleInput) (s : SessionState) (i : ℕ) (r : CycleResult),
      (run_cycles args ef s inputs).2.get? i = some r →
      r.seq = s.frame_number + i := by
  intro inputs
  induction inputs with
  | nil =>
    intro s i r h
    simp [run_cycles] at h
  | cons inp rest ih =>
    intro s i r h
    simp only [run_cycles] at h
    by_cases hg : s.frame_number < ef
    · rw [if_pos hg] at h
      cases i with
      | zero =>
        simp only [List.get?_cons_zero, Option.some.injEq] at h
        rw [← h, (run_cycle_state args ef s inp).2]
        simp
      | succ j =>
        simp only [List.get?_cons_succ] at h
        have h2 := ih (run_cycle args ef s inp).1 j r h
        rw [h2, (run_cycle_state args ef s inp).1]
        push_cast
        ring
    · rw [if_neg hg] at h
      simp at h

/-- Claim C2: in every run the sequence number advances by exactly 1 per
cycle regardless of outcome; the cycle at position i consumes sequence
number start + i, distinct positions consume distinct numbers, and
consecutive cycles consume consecutive numbers. -/
theorem C2_sequence_numbers :
    ∀ (args : RunArgs) (ef : ℤ) (inputs : List CycleInput) (s : SessionState),
      (∀ inp : CycleInput,
        (run_cycle args ef s inp).1.frame_number = s.frame_number + 1 ∧
        (run_cycle args ef s inp).2.seq = s.frame_number) ∧
      (∀ (i : ℕ) (r : CycleResult),
        (run_cycles args ef s inputs).2.get? i = some r →
        r.seq = s.frame_number + i) ∧
      (∀ (i j : ℕ) (ri rj : CycleResult),
        (run_cycles args ef s inputs).2.get? i = some ri →
        (run_cycles args ef s inputs).2.get? j = some rj →
        i ≠ j → ri.seq ≠ rj.seq) ∧
      (∀ (i : ℕ) (ri rn : CycleResult),
        (run_cycles args ef s inputs).2.get? i = some ri →
        (run_cycles args ef s inputs).2.get? (i + 1) = some rn →
        rn.seq = ri.seq + 1) := by
  intro args ef inputs s
  refine ⟨fun inp => run_cycle_state args ef s inp,
    run_cycles_seq_get args ef inputs s, ?_, ?_⟩
  · intro i j ri rj hi hj hne
    rw [run_cycles_seq_get args ef inputs s i ri hi,
        run_cycles_seq_get args ef inputs s j rj hj]
    intro hc
    apply hne
    have hij : (i : ℤ) = (j : ℤ) := by linarith
    exact_mod_cast hij
  · intro i ri rn hi hn
    rw [run_cycles_seq_get args ef inputs s i ri hi,
        run_cycles_seq_get args ef inputs s (i + 1) rn hn]
    push_cast
    ring

/-- Claim C2 witness: a concrete two-cycle run (both cycles skipped) consumes
sequence numbers 0 and 1: consecutive and distinct. -/
theorem C2_sequence_numbers_witness :
    ({ seq := 1, outcome := .Skipped, saved := none, slept := 20 } : CycleResult).seq
      = ({ seq := 0, outcome := .Skipped, saved := none, slept := 20 } : CycleResult).seq + 1 ∧
    ({ seq := 0, outcome := .Skipped, saved := none, slept := 20 } : CycleResult).seq
      ≠ ({ seq := 1, outcome := .Skipped, saved := none, slept := 20 } : CycleResult).seq := by
  have hget0 : (run_cycles argsA 2 (initialState argsA) [errCycle, errCycle]).2.get? 0
      = some { seq := 0, outcome := .Skipped, saved := none, slept := 20 } := by rfl
  have hget1 : (run_cycles argsA 2 (initialState argsA) [errCycle, errCycle]).2.get? 1
      = some { seq := 1, outcome := .Skipped, saved := none, slept := 20 } := by rfl
  have h := C2_sequence_numbers argsA 2 [errCycle, errCycle] (initialState argsA)
  exact ⟨h.2.2.2 0 _ _ hget0 hget1, h.2.2.1 0 1 _ _ hget0 hget1 (by norm_num)⟩

theorem capture_loop_none (ctol : ℚ) (hist : List ℚ) (led : ℤ)
    (attempts : ℕ → AttemptInput) :
    ∀ (r i : ℕ),
      (∀ j, j < r → attempt_fails ctol hist (attempts (i + j)) = true) →
      capture_loop ctol hist led attempts i r = none := by
  intro r
  induction r with
  | zero => intro i h; rfl
  | succ m ih =>
    intro i h
    rw [capture_loop]
    cases ha : attempts i with
    | err =>
      refine ih (i + 1) (fun j hj => ?_)
      have hh := h (j + 1) (by omega)
      rwa [show i + (j + 1) = i + 1 + j by omega] at hh
    | img b =>
      have hf := h 0 (by omega)
      rw [add_zero, ha, attempt_fails] at hf
      have hc : is_consistent ctol hist b = false := by simpa using hf
      simp only [hc, Bool.false_eq_true, if_false]
      refine ih (i + 1) (fun j hj => ?_)
      have hh := h (j + 1) (by omega)
      rwa [show i + (j + 1) = i + 1 + j by omega] at hh

/-- Claim C6: when every one of the maxRetries attempts fails (capture error
or consistency rejection), the cycle is Skipped: nothing is saved, the
brightness history and the LED level are unchanged, the full interval is
slept, and the sequence number is still consumed. -/
theorem C6_skipped_frame :
    ∀ (args : RunArgs) (ef : ℤ) (s : SessionState) (inp : CycleInput),
      (∀ i, i < args.max_retries →
        attempt_fails args.consistency_tolerance s.brightness_history
          (inp.attempts i) = true) →
      run_cycle args ef s inp =
        ({ s with frame_number := s.frame_number + 1 },
         { seq := s.frame_number, outcome := .Skipped, saved := none,
           slept := args.interval }) := by
  intro args ef s inp h
  have hn : capture_with_adaptive_led args.consistency_tolerance
      s.brightness_history s.current_led inp.attempts args.max_retries = none := by
    rw [capture_with_adaptive_led]
    exact capture_loop_none _ _ _ _ args.max_retries 0
      (fun j hj => by simpa using h j hj)
  unfold run_cycle
  rw [hn]

/-- Claim C6 witness: with three attempts all erroring out the concrete cycle
is skipped, writes nothing, leaves history and LED alone and consumes
sequence number 0. -/
theorem C6_skipped_frame_witness :
    run_cycle argsA 2 (initialState argsA) errCycle =
      ({ initialState argsA with
          frame_number := (initialState argsA).frame_number + 1 },
       { seq := (initialState argsA).frame_number, outcome := .Skipped,
         saved := none, slept := argsA.interval }) := by
  exact C6_skipped_frame argsA 2 (initialState argsA) errCycle (fun i _ => rfl)

theorem update_brightness_history_eq (hist : List ℚ) (b : ℚ)
    (hh : hist.length ≤ 10) :
    update_brightness_history hist b = (hist ++ [b]).rtake 10 := by
  simp only [update_brightness_history, List.rtake]
  by_cases hc : (hist ++ [b]).length > 10
  · rw [if_pos hc]
    have hl : (hist ++ [b]).length = 11 := by
      simp only [List.length_append, List.length_singleton] at hc ⊢
      omega
    rw [hl]
    norm_num
  · rw [if_neg hc]
    have h0 : (hist ++ [b]).length - 10 = 0 := by omega
    rw [h0, List.drop_zero]

theorem update_brightness_history_length (hist : List ℚ) (b : ℚ)
    (hh : hist.length ≤ 10) :
    (update_brightness_history hist b).length ≤ 10 := by
  rw [update_brightness_history_eq hist b hh, List.rtake]
  simp only [List.length_drop]
  omega

theorem rtake_append_rtake (a t : List ℚ) (n : ℕ) :
    (a.rtake n ++ t).rtake n = (a ++ t).rtake n := by
  rw [List.rtake_eq_reverse_take_reverse (a.rtake n ++ t) n,
      List.rtake_eq_reverse_take_reverse (a ++ t) n]
  congr 1
  rw [List.reverse_append, List.reverse_append,
      List.rtake_eq_reverse_take_reverse a n, List.reverse_reverse,
      List.take_append_eq_append_take, List.take_append_eq_append_take,
      List.take_take, min_eq_left (by omega)]

theorem foldl_update (l : List ℚ) :
    ∀ (h : List ℚ), h.length ≤ 10 →
      List.foldl update_brightness_history h l = (h ++ l).rtake 10 := by
  induction l with
  | nil =>
    intro h hh
    rw [List.foldl_nil, List.append_nil, List.rtake]
    have h0 : h.length - 10 = 0 := by omega
    rw [h0, List.drop_zero]
  | cons b t ih =>
    intro h hh
    rw [List.foldl_cons,
        ih (update_brightness_history h b) (update_brightness_history_length h b hh),
        update_brightness_history_eq h b hh,
        rtake_append_rtake (h ++ [b]) t 10]
    congr 1
    simp

theorem capture_loop_some (ctol : ℚ) (hist : List ℚ) (led : ℤ)
    (attempts : ℕ → AttemptInput) :
    ∀ (r i : ℕ) (b : ℚ) (l : ℤ),
      capture_loop ctol hist led attempts i r = some (b, l) →
      is_consistent ctol hist b = true ∧ l = led := by
  intro r
  induction r with
  | zero => intro i b l h; simp [capture_loop] at h
  | succ m ih =>
    intro i b l h
    rw [capture_loop] at h
    cases ha : attempts i with
    | err =>
      simp only [ha] at h
      exact ih (i + 1) b l h
    | img c =>
      simp only [ha] at h
      by_cases hcon : is_consistent ctol hist c = true
      · rw [if_pos hcon] at h
        simp only [Option.some.injEq, Prod.mk.injEq] at h
        refine ⟨?_, h.2.symm⟩
        rw [← h.1]
        exact hcon
      · rw [if_neg hcon] at h
        exact ih (i + 1) b l h

/-- Claim C3: the brightness history after any sequence of accepted samples is
exactly the window of the last (at most) 10 accepted samples, the running
average is recomputed as the arithmetic mean of that window after each
acceptance, and within a cycle the sample is inserted only on acceptance:
the consistency check of a completed cycle is decided against the
pre-cycle history, the post-cycle history is that history with the
accepted sample appended, and the LED adjustment is computed from the
accepted sample afterwards. -/
theorem C3_running_average :
    (∀ l : List ℚ,
        List.foldl update_brightness_history [] l = (l.reverse.take 10).reverse) ∧
    (∀ l : List ℚ, l ≠ [] →
        get_running_average (List.foldl update_brightness_history [] l)
          = some ((l.reverse.take 10).sum / ((l.reverse.take 10).length : ℚ))) ∧
    (∀ (args : RunArgs) (ef : ℤ) (s s2 : SessionState) (inp : CycleInput)
        (r : CycleResult),
      run_cycle args ef s inp = (s2, r) → r.outcome = .Completed →
      ∃ b led,
        capture_with_adaptive_led args.consistency_tolerance s.brightness_history
          s.current_led inp.attempts args.max_retries = some (b, led) ∧
        is_consistent args.consistency_tolerance s.brightness_history b = true ∧
        s2.brightness_history = update_brightness_history s.brightness_history b ∧
        s2.current_led = next_led args.target_brightness args.brightness_tolerance
          s.current_led b) := by
  have hwin : ∀ l : List ℚ,
      List.foldl update_brightness_history [] l = (l.reverse.take 10).reverse := by
    intro l
    rw [foldl_update l [] (by simp), List.nil_append,
        List.rtake_eq_reverse_take_reverse l 10]
  refine ⟨hwin, ?_, ?_⟩
  · intro l hl
    rw [hwin l, get_running_average]
    have hne : (l.reverse.take 10).reverse ≠ [] := by
      simp only [ne_eq, List.reverse_eq_nil_iff, List.take_eq_nil_iff]
      simp [hl]
    rw [if_neg hne, List.sum_reverse, List.length_reverse]
  · intro args ef s s2 inp r hrc hout
    unfold run_cycle at hrc
    cases hc : capture_with_adaptive_led args.consistency_tolerance
        s.brightness_history s.current_led inp.attempts args.max_retries with
    | none =>
      rw [hc] at hrc
      injection hrc with hs2 hr
      rw [← hr] at hout
      simp at hout
    | some p =>
      obtain ⟨b, led⟩ := p
      rw [hc] at hrc
      injection hrc with hs2 hr
      have hcons := capture_loop_some args.consistency_tolerance s.brightness_history
        s.current_led inp.attempts args.max_retries 0 b led hc
      refine ⟨b, led, rfl, hcons.1, ?_, ?_⟩
      · rw [← hs2]
      · rw [← hs2]

/-- Claim C3 witness: after accepting 100 then 120 the running average is the
mean of the two-sample window, and a concrete completed cycle checks
consistency against the pre-cycle history and appends its sample
afterwards. -/
theorem C3_running_average_witness :
    (get_running_average (List.foldl update_brightness_history [] [100, 120])
      = some ((([100, 120] : List ℚ).reverse.take 10).sum
          / ((([100, 120] : List ℚ).reverse.take 10).length : ℚ))) ∧
    (∃ b led,
      capture_with_adaptive_led argsA.consistency_tolerance
          (initialState argsA).brightness_history (initialState argsA).current_led
          (imgCycle 100).attempts argsA.max_retries = some (b, led) ∧
      is_consistent argsA.consistency_tolerance
          (initialState argsA).brightness_history b = true ∧
      (run_cycle argsA 2 (initialState argsA) (imgCycle 100)).1.brightness_history
        = update_brightness_history (initialState argsA).brightness_history b ∧
      (run_cycle argsA 2 (initialState argsA) (imgCycle 100)).1.current_led
        = next_led argsA.target_brightness argsA.brightness_tolerance
            (initialState argsA).current_led b) := by
  refine ⟨C3_running_average.2.1 [100, 120] (by simp), ?_⟩
  exact C3_running_average.2.2 argsA 2 (initialState argsA)
    (run_cycle argsA 2 (initialState argsA) (imgCycle 100)).1 (imgCycle 100)
    (run_cycle argsA 2 (initialState argsA) (imgCycle 100)).2 rfl rfl

theorem run_cycles_length (args : RunArgs) :
    ∀ (inputs : List CycleInput) (s : SessionState) (ef : ℤ),
      (run_cycles args ef s inputs).2.length
        = min inputs.length (ef - s.frame_number).toNat := by
  intro inputs
  induction inputs with
  | nil => intro s ef; simp [run_cycles]
  | cons inp rest ih =>
    intro s ef
    simp only [run_cycles]
    by_cases hg : s.frame_number < ef
    · rw [if_pos hg]
      simp only [List.length_cons]
      rw [ih (run_cycle args ef s inp).1 ef, (run_cycle_state args ef s inp).1]
      omega
    · rw [if_neg hg]
      simp only [List.length_nil, List.length_cons]
      omega

theorem run_cycles_final_frame (args : RunArgs) :
    ∀ (inputs : List CycleInput) (s : SessionState) (ef : ℤ),
      (run_cycles args ef s inputs).1.frame_number
        = s.frame_number + min inputs.length (ef - s.frame_number).toNat := by
  intro inputs
  induction inputs with
  | nil => intro s ef; simp [run_cycles]
  | cons inp rest ih =>
    intro s ef
    simp only [run_cycles]
    by_cases hg : s.frame_number < ef
    · rw [if_pos hg]
      rw [ih (run_cycle args ef s inp).1 ef, (run_cycle_state args ef s inp).1]
      simp only [List.length_cons]
      omega
    · rw [if_neg hg]
      simp only [List.length_cons]
      omega

theorem frame_events_no_probe (rs : List CycleResult) :
    (rs.map (fun r => Event.frame r.seq r.outcome)).countP Event.isProbe = 0 := by
  induction rs with
  | nil => rfl
  | cons r t ih => simp [List.countP_cons, Event.isProbe, ih]

/-- Claim C7: the health probe is the first event of every run and occurs
exactly once; its failure yields a run with no frame cycle at all; with a
healthy probe every scheduled cycle executes regardless of cycle outcomes
(capture failures, consistency rejections and retry exhaustion never
terminate the run early), and camera configuration applies every setting
whatever the per-key outcomes. -/
theorem C7_probe_and_error_containment :
    ∀ (args : RunArgs) (inputs : List CycleInput),
      (run_events args false inputs = [Event.probe false] ∧
       (run args false inputs).ok = false ∧
       (run args false inputs).results = []) ∧
      ((run_events args true inputs).countP Event.isProbe = 1 ∧
       (run_events args true inputs).head? = some (Event.probe true) ∧
       (run args true inputs).ok = true ∧
       (run args true inputs).results.length = min inputs.length args.frames) ∧
      (∀ (apply : String → ℤ → Bool) (settings : List (String × ℤ)),
        (configure_camera apply settings).length = settings.length) := by
  intro args inputs
  refine ⟨⟨rfl, rfl, rfl⟩, ⟨?_, rfl, rfl, ?_⟩, ?_⟩
  · rw [run_events, List.countP_cons]
    rw [frame_events_no_probe]
    simp [Event.isProbe]
  · have hres : (run args true inputs).results
        = (run_cycles args (args.start_frame + (args.frames : ℤ))
            (initialState args) inputs).2 := rfl
    rw [hres, run_cycles_length args inputs (initialState args)]
    have hs : (initialState args).frame_number = args.start_frame := rfl
    rw [hs]
    omega
  · intro ap settings
    rw [configure_camera, List.length_map]

/-- Claim C8, amended: the frame number in the final log line is the last
consumed (attempted) sequence number, start + cycles - 1, whether or not
the last cycle persisted a frame; it equals the last completed frame
number only when the trailing cycle completed. -/
theorem C8_reported_frame :
    ∀ (args : RunArgs) (inputs : List CycleInput),
      (run args true inputs).reported_last_frame
        = some (args.start_frame + (min inputs.length args.frames : ℕ) - 1) := by
  intro args inputs
  have hrep : (run args true inputs).reported_last_frame
      = some ((run_cycles args (args.start_frame + (args.frames : ℤ))
          (initialState args) inputs).1.frame_number - 1) := rfl
  rw [hrep, run_cycles_final_frame args inputs (initialState args)]
  have hs : (initialState args).frame_number = args.start_frame := rfl
  rw [hs]
  congr 1
  omega

/-- Claim C8 counterexample: a two-frame run whose first cycle completes
(sequence number 0) and whose second cycle is skipped reports frame 1 in
the final log line, not the last successfully completed frame 0. -/
theorem C8_counterexample :
    (run argsA true [imgCycle 100, errCycle]).reported_last_frame = some 1 ∧
    (((run argsA true [imgCycle 100, errCycle]).results.filter
        (fun r => r.outcome.isCompleted)).map (fun r => r.seq)) = [0] ∧
    (run argsA true [imgCycle 100, errCycle]).reported_last_frame ≠ some 0 := by
  refine ⟨rfl, rfl, ?_⟩
  decide

/-- Claim C1, amended: a cycle never sleeps a negative duration; a Completed
cycle followed by another frame sleeps exactly max(0, cadence - elapsed)
and hence starts the next cycle immediately when processing exceeded the
cadence, the final Completed cycle sleeps nothing, but a Skipped cycle
sleeps the full cadence regardless of its elapsed processing time. -/
theorem C1_scheduler_sleep :
    ∀ (args : RunArgs) (ef : ℤ) (s : SessionState) (inp : CycleInput)
      (s2 : SessionState) (r : CycleResult),
      0 ≤ args.interval →
      run_cycle args ef s inp = (s2, r) →
      0 ≤ r.slept ∧
      (r.outcome = .Completed → s2.frame_number < ef →
        r.slept = max 0 (args.interval - inp.elapsed)) ∧
      (r.outcome = .Completed → ¬ s2.frame_number < ef → r.slept = 0) ∧
      (r.outcome = .Completed → args.interval ≤ inp.elapsed → r.slept = 0) ∧
      (r.outcome = .Skipped → r.slept = args.interval) := by
  intro args ef s inp s2 r hint hrc
  unfold run_cycle at hrc
  cases hc : capture_with_adaptive_led args.consistency_tolerance s.brightness_history
      s.current_led inp.attempts args.max_retries with
  | none =>
    rw [hc] at hrc
    injection hrc with hs2 hr
    subst hs2
    subst hr
    refine ⟨hint, ?_, ?_, ?_, fun _ => rfl⟩ <;>
      (intro hout hdummy; exact Outcome.noConfusion hout)
  | some p =>
    obtain ⟨b, led⟩ := p
    rw [hc] at hrc
    injection hrc with hs2 hr
    subst hs2
    subst hr
    refine ⟨?_, ?_, ?_, ?_, ?_⟩
    · dsimp only
      split
      · exact le_max_left 0 _
      · exact le_refl 0
    · intro _ hlt
      dsimp only at hlt ⊢
      rw [if_pos hlt]
    · intro _ hlt
      dsimp only at hlt ⊢
      rw [if_neg hlt]
    · intro _ hle
      dsimp only
      split
      · exact max_eq_left (by linarith)
      · rfl
    · intro hout
      simp at hout

/-- Claim C1 counterexample: a skipped cycle with cadence 20 and elapsed
processing time 5 sleeps the full 20 seconds, not max(0, 20 - 5) = 15:
the claimed sleep formula does not hold for Skipped cycles. -/
theorem C1_counterexample :
    (run_cycle argsA 2 (initialState argsA) errCycle).2.slept
      ≠ max 0 (argsA.interval - errCycle.elapsed) := by
  have h : (run_cycle argsA 2 (initialState argsA) errCycle).2.slept = 20 := rfl
  rw [h]
  norm_num [argsA, errCycle]

/-- Claim C1 witness: a concrete completed non-final cycle sleeps
max(0, 20 - 1) and a concrete skipped cycle sleeps the full cadence. -/
theorem C1_scheduler_sleep_witness :
    0 ≤ (run_cycle argsA 2 (initialState argsA) (imgCycle 100)).2.slept ∧
    (run_cycle argsA 2 (initialState argsA) (imgCycle 100)).2.slept
      = max 0 (argsA.interval - (imgCycle 100).elapsed) ∧
    (run_cycle argsA 2 (initialState argsA) errCycle).2.slept = argsA.interval := by
  have h1 := C1_scheduler_sleep argsA 2 (initialState argsA) (imgCycle 100)
    (run_cycle argsA 2 (initialState argsA) (imgCycle 100)).1
    (run_cycle argsA 2 (initialState argsA) (imgCycle 100)).2
    (by norm_num [argsA]) rfl
  have h2 := C1_scheduler_sleep argsA 2 (initialState argsA) errCycle
    (run_cycle argsA 2 (initialState argsA) errCycle).1
    (run_cycle argsA 2 (initialState argsA) errCycle).2
    (by norm_num [argsA]) rfl
  exact ⟨h1.1, h1.2.1 rfl (by decide), h2.2.2.2.2 rfl⟩

/-- Claim C10: the running average stored in a persisted frame's metadata is
computed from the history as it stood before the frame's own brightness
was inserted: it is the mean of the samples accepted strictly before this
frame, and it is None when this frame is the first acceptance into an
empty history. -/
theorem C10_metadata_running_avg :
    ∀ (args : RunArgs) (ef : ℤ) (s s2 : SessionState) (inp : CycleInput)
      (r : CycleResult) (sv : SavedFrame),
      run_cycle args ef s inp = (s2, r) → r.saved = some sv →
      args.save_metadata = true →
      ∃ m, sv.meta = some m ∧
        m.running_avg = get_running_average s.brightness_history ∧
        (s.brightness_history = [] → m.running_avg = none) ∧
        (s.brightness_history ≠ [] →
          m.running_avg = some (s.brightness_history.sum
            / (s.brightness_history.length : ℚ))) ∧
        s2.brightness_history
          = update_brightness_history s.brightness_history m.brightness := by
  intro args ef s s2 inp r sv hrc hsv hmeta
  unfold run_cycle at hrc
  cases hc : capture_with_adaptive_led args.consistency_tolerance s.brightness_history
      s.current_led inp.attempts args.max_retries with
  | none =>
    rw [hc] at hrc
    injection hrc with hs2 hr
    subst hr
    simp at hsv
  | some p =>
    obtain ⟨b, led⟩ := p
    rw [hc] at hrc
    injection hrc with hs2 hr
    subst hs2
    subst hr
    simp only [Option.some.injEq] at hsv
    refine ⟨{ frame := s.frame_number, timestamp := inp.timestamp, brightness := b,
              led_intensity := led,
              running_avg := get_running_average s.brightness_history },
      ?_, rfl, ?_, ?_, rfl⟩
    · rw [← hsv, save_image]
      simp [hmeta]
    · intro he
      rw [get_running_average, if_pos he]
    · intro hne
      rw [get_running_average, if_neg hne]

/-- Claim C10 witness: the first completed frame of a concrete run stores a
null running average in its metadata, since its own sample had not yet
been inserted into the (empty) history. -/
theorem C10_metadata_running_avg_witness :
    ∃ m, (save_image argsA.basename argsA.save_metadata (imgCycle 100).timestamp 0
        [] 100 50).meta = some m ∧
      m.running_avg = get_running_average (initialState argsA).brightness_history ∧
      ((initialState argsA).brightness_history = [] → m.running_avg = none) ∧
      ((initialState argsA).brightness_history ≠ [] →
        m.running_avg = some ((initialState argsA).brightness_history.sum
          / ((initialState argsA).brightness_history.length : ℚ))) ∧
      (run_cycle argsA 2 (initialState argsA) (imgCycle 100)).1.brightness_history
        = update_brightness_history (initialState argsA).brightness_history
            m.brightness := by
  exact C10_metadata_running_avg argsA 2 (initialState argsA)
    (run_cycle argsA 2 (initialState argsA) (imgCycle 100)).1 (imgCycle 100)
    (run_cycle argsA 2 (initialState argsA) (imgCycle 100)).2
    (save_image argsA.basename argsA.save_metadata (imgCycle 100).timestamp 0
      [] 100 50)
    rfl rfl rfl

theorem natDigitsAux_length_le :
    ∀ (f n k : ℕ), 1 ≤ k → n < 10 ^ k → (natDigitsAux f n).length ≤ k := by
  intro f
  induction f with
  | zero => intro n k h1 h2; simp [natDigitsAux]
  | succ g ih =>
    intro n k h1 h2
    rw [natDigitsAux]
    by_cases hn : n < 10
    · rw [if_pos hn]
      simpa using h1
    · rw [if_neg hn]
      simp only [List.length_append, List.length_singleton]
      have hk2 : 2 ≤ k := by
        by_contra hk
        have hk1 : k = 1 := by omega
        rw [hk1, pow_one] at h2
        omega

      have h10 : 10 ^ k = 10 * 10 ^ (k - 1) := by
        have hk3 : k = (k - 1) + 1 := by omega
        conv_lhs => rw [hk3]
        rw [pow_succ']
      have hdiv : n / 10 < 10 ^ (k - 1) := by
        apply Nat.div_lt_of_lt_mul
        rw [← h10]
        exact h2
      have := ih (n / 10) (k - 1) (by omega) hdiv
      omega

theorem format05_length (n : ℤ) (h0 : 0 ≤ n) (h5 : n < 100000) :
    (format05 n).length = 5 := by
  rw [format05, if_neg (by omega)]
  have hd : (natDigits n.natAbs).length ≤ 5 := by
    rw [natDigits]
    apply natDigitsAux_length_le
    · omega
    · have hp : (10 : ℕ) ^ 5 = 100000 := by norm_num
      omega
  show (padListLeft '0' 5 ((natDigits n.natAbs).map digitChar)).length = 5
  rw [padListLeft]
  simp only [List.length_append, List.length_replicate, List.length_map]
  omega

/-- Claim C9 counterexample: crossing 100000 widens the rendered sequence
number: frames 99999 and 100000 of a single run have filenames of
different lengths, so the zero-padded field is not the same width for
every sequence number of every run. -/
theorem C9_counterexample :
    (generate_filename "frame" 99999).length
      ≠ (generate_filename "frame" 100000).length := by
  decide

/-- Claim C9, amended: with metadata saving enabled (the default), persistence
writes exactly one image file and one sibling metadata record for a
completed frame, both named by the shared base identifier and the
sequence number zero-padded to a minimum width of 5 digits - the width
is exactly 5 (hence shared) for every sequence number below 100000, and
larger numbers render wider; the metadata record carries the frame
number, timestamp, brightness, actuator level and running average. -/
theorem C9_persistence :
    ∀ (basename : String) (ts : ℕ) (n : ℤ) (hist : List ℚ) (b : ℚ) (led : ℤ),
      (save_image basename true ts n hist b led).image_path
          = basename ++ "_" ++ format05 n ++ ".jpg" ∧
      (save_image basename true ts n hist b led).meta_path
          = some (basename ++ "_" ++ format05 n ++ ".json") ∧
      (save_image basename true ts n hist b led).meta
          = some { frame := n, timestamp := ts, brightness := b,
                   led_intensity := led,
                   running_avg := get_running_average hist } ∧
      (0 ≤ n → n < 100000 → (format05 n).length = 5) := by
  intro basename ts n hist b led
  exact ⟨rfl, rfl, rfl, format05_length n⟩

/-- Claim C9 witness: frame 42 of a run with base name frame is saved as one
image and one sibling metadata record over a 5-wide zero-padded number. -/
theorem C9_persistence_witness :
    (save_image "frame" true 7 42 [100] 100 50).image_path
        = "frame" ++ "_" ++ format05 42 ++ ".jpg" ∧
    (save_image "frame" true 7 42 [100] 100 50).meta_path
        = some ("frame" ++ "_" ++ format05 42 ++ ".json") ∧
    (format05 42).length = 5 := by
  have h := C9_persistence "frame" 7 42 [100] 100 50
  exact ⟨h.1, h.2.1, h.2.2.2 (by norm_num) (by norm_num)⟩

/-- Claim C5 witness: with target 128, tolerance 30, brightness 80 and current
level 50, the deviation 48 exceeds the band, the adjustment is the
clamped truncation of 48 / 8 with magnitude 6 in the upward direction,
and the new level is the in-range clamp of 56. -/
theorem C5_led_adjustment_witness :
    (calculate_led_adjustment 128 30 80
        = max (-20) (min 20 (int_trunc ((128 - 80) / 8))) ∧
     |calculate_led_adjustment 128 30 80|
        = min 20 (int_trunc (|(128 : ℚ) - 80| / 8)) ∧
     0 ≤ (calculate_led_adjustment 128 30 80 : ℚ) * (128 - 80)) ∧
    (next_led 128 30 50 80
        = max 0 (min 255 (50 + calculate_led_adjustment 128 30 80)) ∧
     0 ≤ next_led 128 30 50 80 ∧ next_led 128 30 50 80 ≤ 255) := by
  refine ⟨(C5_led_adjustment 128 30 80 50).2.1 (by norm_num), ?_⟩
  exact (C5_led_adjustment 128 30 80 50).2.2 (by norm_num) (by norm_num)

end ESP32Cam
